import Mathlib

/-
Verification development for SignalBackup::dumpMedia
(src/signalbackup/dumpmedia.cc).

The function walks the attachment collection, looks every attachment up in
the relational store with a query assembled from the run mode (minimal or
full projection) and the optional thread / date-range filters, resolves a
conversation directory and a filename, and writes the payload out.

External collaborators (the SQLite engine, the mime table, the filename
sanitizer, the filesystem primitives, makeFilenameUnique,
prepareOutputDirectory) are modelled as components of an environment
record; everything the source file itself does is translated into
executable Lean definitions below.
-/

namespace SBT

/-! ## Data model -/

/-- One in-memory attachment frame: the identifiers the lookup is keyed by
(`a->rowId()`, `a->attachmentId()`).  The payload bytes themselves never
influence control flow, so they are not carried; whether `clearData()` ran
is tracked in the per-attachment result. -/
structure Attachment where
  rowId : Int
  attachmentId : Int
deriving DecidableEq, Repr

/-- One row of the metadata lookup.  The minimal projection only populates
`ct`, `file_name`, `display_order`; the full projection adds
`date_received`, the message-type flag (`d_mms_type` column), `thread_id`
and the coalesced chat-partner name.  `part.mid` is also selected by the
source query but never read, so it is not carried. -/
structure MetaRow where
  ct : String
  file_name : Option String
  display_order : Int
  date_received : Option Int
  msg_box : Option Int
  thread_id : Option Int
  chatpartner : Option String
deriving DecidableEq, Repr

/-! ## Date-range parsing

`dateToMSecsSinceEpoch` lives elsewhere in the repository; only its use
sites are in src/.  The spec characterises it: each bound parses to epoch
milliseconds, returning -1 on failure, and reports (through the
`needrounding` out-parameter) whether the bound was given date-only, i.e.
without time-of-day granularity. -/

/-- Decimal digit of a character, `none` when not a digit. -/
def digitVal (c : Char) : Option Nat :=
  if c.isDigit then some (c.toNat - 48) else none

/-- Two-digit decimal number from two characters. -/
def twoDigits (a b : Char) : Option Nat := do
  let x ← digitVal a
  let y ← digitVal b
  pure (x * 10 + y)

/-- Four-digit decimal number from four characters. -/
def fourDigits (a b c d : Char) : Option Nat := do
  let x ← twoDigits a b
  let y ← twoDigits c d
  pure (x * 100 + y)

/-- Gregorian leap-year test. -/
def isLeap (y : Nat) : Bool :=
  (y % 4 == 0 && y % 100 != 0) || y % 400 == 0

/-- Length of month `m` (1-based) of year `y`. -/
def daysInMonth (y m : Nat) : Nat :=
  if m == 2 then (if isLeap y then 29 else 28)
  else if m == 4 || m == 6 || m == 9 || m == 11 then 30
  else 31

/-- Days from 1970-01-01 to the civil date `y-m-d` (`m`, `d` 1-based),
for years from 1970 on. -/
def daysSinceEpoch (y m d : Nat) : Nat :=
  (List.range (y - 1970)).foldl (fun acc i => acc + (if isLeap (1970 + i) then 366 else 365)) 0
    + (List.range (m - 1)).foldl (fun acc i => acc + daysInMonth y (i + 1)) 0
    + (d - 1)

/-- Epoch milliseconds of the civil datetime, local time taken as UTC. -/
def epochMs (y m d h mi s : Nat) : Int :=
  Int.ofNat (((daysSinceEpoch y m d) * 86400 + h * 3600 + mi * 60 + s) * 1000)

/-- Validity of the civil-date fields for the simple parser. -/
def civilOk (y m d : Nat) : Bool :=
  1970 ≤ y && 1 ≤ m && m ≤ 12 && 1 ≤ d && d ≤ daysInMonth y m

/-- Modelled from the spec: `dateToMSecsSinceEpoch` (declared outside the
excerpt) converts a date/time token to epoch milliseconds, yielding -1 on
a parse failure; the boolean is the `needrounding` out-parameter, set
exactly when the token was given date-only (`"YYYY-MM-DD"`), clear when it
carries full time-of-day precision (`"YYYY-MM-DD HH:MM:SS"`).  Local time
is taken as UTC. -/
def dateToMSecsSinceEpoch (str : String) : Int × Bool :=
  match str.toList with
  | [y1, y2, y3, y4, c1, m1, m2, c2, d1, d2] =>
    if c1 = '-' ∧ c2 = '-' then
      match fourDigits y1 y2 y3 y4, twoDigits m1 m2, twoDigits d1 d2 with
      | some y, some m, some d =>
        if civilOk y m d then (epochMs y m d 0 0 0, true) else (-1, false)
      | _, _, _ => (-1, false)
    else (-1, false)
  | [y1, y2, y3, y4, c1, m1, m2, c2, d1, d2, sp, h1, h2, c3, i1, i2, c4, s1, s2] =>
    if c1 = '-' ∧ c2 = '-' ∧ sp = ' ' ∧ c3 = ':' ∧ c4 = ':' then
      match fourDigits y1 y2 y3 y4, twoDigits m1 m2, twoDigits d1 d2,
            twoDigits h1 h2, twoDigits i1 i2, twoDigits s1 s2 with
      | some y, some m, some d, some h, some mi, some s =>
        if civilOk y m d && h < 24 && mi < 60 && s < 60 then
          (epochMs y m d h mi s, false)
        else (-1, false)
      | _, _, _, _, _, _ => (-1, false)
    else (-1, false)
  | _ => (-1, false)

/-! ## Date-range list processing (dumpmedia.cc lines 89-126)

The source only forms (start, end) pairs when the token list has even
length, validates each pair, applies the +999 ms rounding to a date-only
end bound, and accumulates the valid ranges into one OR-joined BETWEEN
clause; invalid pairs are logged (with the original strings) and dropped.
The parse function is a parameter so that the theorems quantify over it. -/

/-- Consecutive pairs of a string list (dumpmedia.cc lines 93-95). -/
def chunkPairs : List String → List (String × String)
  | a :: b :: rest => (a, b) :: chunkPairs rest
  | _ => []

/-- One step of the range-validation loop (dumpmedia.cc lines 99-123):
the accumulator carries the valid (start, end) millisecond ranges and the
warned-about original string pairs. -/
def dateRangeStep (pd : String → Int × Bool)
    (acc : List (Int × Int) × List (String × String)) (p : String × String) :
    List (Int × Int) × List (String × String) :=
  let startrange := (pd p.1).1
  let endrange := (pd p.2).1
  let needrounding := (pd p.2).2
  if startrange == -1 || endrange == -1 || endrange < startrange then
    (acc.1, acc.2 ++ [p])
  else
    (acc.1 ++ [(startrange, if needrounding then endrange + 999 else endrange)], acc.2)

/-- Date-range list processing: pairs are only formed for an even-length
list; the first component is the list of valid millisecond ranges that
make up the date where-clause, the second the pairs skipped with a logged
warning. -/
def processDateRanges (pd : String → Int × Bool) (daterangelist : List String) :
    List (Int × Int) × List (String × String) :=
  let dateranges := if daterangelist.length % 2 == 0 then chunkPairs daterangelist else []
  dateranges.foldl (dateRangeStep pd) ([], [])

/-- Validity of one (start, end) string pair: both bounds parse and the
end is not before the start (dumpmedia.cc line 104). -/
def pairValid (pd : String → Int × Bool) (p : String × String) : Bool :=
  !((pd p.1).1 == -1 || (pd p.2).1 == -1 || (pd p.2).1 < (pd p.1).1)

/-- The millisecond range a valid pair contributes, after the +999 ms
rounding of a date-only end bound (dumpmedia.cc lines 114-115). -/
def roundRange (pd : String → Int × Bool) (p : String × String) : Int × Int :=
  ((pd p.1).1, if (pd p.2).2 then (pd p.2).1 + 999 else (pd p.2).1)

/-- Whether the date where-clause of the source is properly terminated.
The closing parenthesis of dumpmedia.cc lines 121-122 is appended only in
the final pair's iteration, which the continue at line 108 skips when
that pair is invalid; the clause is well-formed exactly when it is empty
(no valid range survived, so no opening parenthesis was written either)
or the final pair is valid. -/
def dateClauseTerminated (pd : String → Int × Bool) (daterangelist : List String) : Bool :=
  let dateranges := if daterangelist.length % 2 == 0 then chunkPairs daterangelist else []
  (processDateRanges pd daterangelist).1.isEmpty ||
    (match dateranges.getLast? with
     | none => true
     | some p => pairValid pd p)

/-! ## The lookup query (dumpmedia.cc lines 61-126)

The query is assembled as a string in the source; it is embedded here
structurally: the tables of the FROM/JOIN clause, the projection mode, and
the WHERE conditions.  Executability against a schema is the property the
claims are about: SQLite refuses a statement whose table or column
references do not resolve against the FROM clause. -/

/-- Schema-version-dependent member strings of SignalBackup, at their
values for the classic database layout. -/
def d_mms_table : String := "mms"

def d_mms_type : String := "msg_box"

def d_thread_recipient_id : String := "recipient_id"

def d_recipient_system_joined_name : String := "system_display_name"

def d_recipient_profile_given_name : String := "signal_profile_name"

/-- A WHERE condition of the lookup: the keyed match on the attachment
identifiers (always present), the thread allow-list, and the OR-joined
date BETWEEN clause. -/
inductive QCond
  | keyMatch
  | threadIn (ts : List Int)
  | dateRange (rs : List (Int × Int))
deriving DecidableEq, Repr

/-- The assembled lookup statement: the projection mode, the FROM/JOIN
tables, the WHERE conditions, and whether the statement is syntactically
well-formed (`closed` is false when the date clause was left without its
closing parenthesis). -/
structure SqlQuery where
  selectsFull : Bool
  fromTables : List String
  conds : List QCond
  closed : Bool
deriving DecidableEq, Repr

/-- Content of the assembled query for a given set of surviving valid
ranges (dumpmedia.cc lines 62-126): minimal projection FROM part only;
full projection joins the message, thread, recipient and groups tables;
the thread clause is appended when the allow-list is nonempty, the date
clause when at least one valid range survived.  This constructor
describes the well-terminated form; the per-run assembly, including the
unterminated-clause behaviour, is `buildQueryFromList`. -/
def buildQuery (fullbackup : Bool) (threads : List Int) (validRanges : List (Int × Int)) :
    SqlQuery :=
  { selectsFull := fullbackup
    fromTables :=
      if fullbackup then ["part", d_mms_table, "thread", "recipient", "groups"] else ["part"]
    conds :=
      [QCond.keyMatch]
        ++ (if threads.isEmpty then [] else [QCond.threadIn threads])
        ++ (if validRanges.isEmpty then [] else [QCond.dateRange validRanges])
    closed := true }

/-- The per-run query assembly from the raw date-range token list
(dumpmedia.cc lines 61-126): the WHERE content is built from the
surviving valid ranges, and the statement is marked unterminated when the
final pair's skipped iteration left the date clause without its closing
parenthesis. -/
def buildQueryFromList (fullbackup : Bool) (threads : List Int)
    (pd : String → Int × Bool) (daterangelist : List String) : SqlQuery :=
  { buildQuery fullbackup threads (processDateRanges pd daterangelist).1 with
    closed := dateClauseTerminated pd daterangelist }

/-- Column references of a WHERE condition, as (optional table qualifier,
column): the key match names part._id and part.unique_id, the thread
clause names thread._id, the date clause names the unqualified
date_received. -/
def condRefs : QCond → List (Option String × String)
  | QCond.keyMatch => [(some "part", "_id"), (some "part", "unique_id")]
  | QCond.threadIn _ => [(some "thread", "_id")]
  | QCond.dateRange _ => [(none, "date_received")]

/-- Column references of the minimal projection
(part.mid, part.ct, part.file_name, part.display_order). -/
def minimalProjRefs : List (Option String × String) :=
  [(some "part", "mid"), (some "part", "ct"), (some "part", "file_name"),
   (some "part", "display_order")]

/-- Column references of the full projection and its LEFT JOIN
conditions (dumpmedia.cc lines 69-79). -/
def fullProjRefs : List (Option String × String) :=
  minimalProjRefs ++
    [(some d_mms_table, "date_received"), (some d_mms_table, d_mms_type),
     (some d_mms_table, "thread_id"), (some "thread", d_thread_recipient_id),
     (some "groups", "title"), (some "recipient", d_recipient_system_joined_name),
     (some "recipient", "profile_joined_name"),
     (some "recipient", d_recipient_profile_given_name),
     -- LEFT JOIN ... ON conditions
     (some "part", "mid"), (some d_mms_table, "_id"),
     (some d_mms_table, "thread_id"), (some "thread", "_id"),
     (some "thread", d_thread_recipient_id), (some "recipient", "_id"),
     (some "recipient", "group_id"), (some "groups", "group_id")]

/-- All identifier references of the assembled query. -/
def queryRefs (q : SqlQuery) : List (Option String × String) :=
  (if q.selectsFull then fullProjRefs else minimalProjRefs) ++ q.conds.flatMap condRefs

/-- A database schema: the tables of the store, each with its columns. -/
def Schema := List (String × List String)

/-- Columns of a table of the schema, `none` when the table is absent. -/
def lookupCols (sch : Schema) (t : String) : Option (List String) :=
  (sch.find? (fun p => p.1 == t)).map (fun p => p.2)

/-- SqliteDB::containsTable. -/
def containsTable (sch : Schema) (t : String) : Bool :=
  (lookupCols sch t).isSome

/-- SqliteDB::tableContainsColumn. -/
def tableContainsColumn (sch : Schema) (t c : String) : Bool :=
  match lookupCols sch t with
  | some cs => cs.contains c
  | none => false

/-- Resolution of one identifier reference against the FROM tables: a
qualified reference needs its table joined and the column present; an
unqualified reference must resolve against exactly one joined table. -/
def refOk (sch : Schema) (fts : List String) : Option String × String → Bool
  | (some t, c) => fts.contains t && tableContainsColumn sch t c
  | (none, c) => fts.countP (fun t => tableContainsColumn sch t c) == 1

/-- The relational store can execute the statement: it is syntactically
well-formed (the date clause, if any, was closed), every FROM table
exists and every identifier reference resolves. -/
def queryExecutes (sch : Schema) (q : SqlQuery) : Bool :=
  q.closed && q.fromTables.all (containsTable sch) && (queryRefs q).all (refOk sch q.fromTables)

/-! ## Conversation registry (dumpmedia.cc lines 38-40 and 186-206)

`conversations` is a pair of parallel vectors: thread ids and the
directory names assigned to them.  A new thread whose (sanitized)
chat-partner name is already taken gets `"(2)"` appended until the name is
free. -/

/-- bepaald::findIdxOf: index of the first occurrence of `t`, if any. -/
def findIdxOf : List Int → Int → Option Nat
  | [], _ => none
  | x :: xs, t => if x = t then some 0 else (findIdxOf xs t).map (fun i => i + 1)

/-- The disambiguation while-loop (dumpmedia.cc lines 200-201), with
explicit fuel: while the candidate is taken, append the marker `"(2)"`.
`uniqName` supplies fuel that provably suffices. -/
def uniqNameFuel : Nat → List String → String → String
  | 0, _, n => n
  | fuel + 1, names, n =>
    if n ∈ names then uniqNameFuel fuel names (n ++ "(2)") else n

/-- First free name obtained from `n` by appending `"(2)"` zero or more
times.  One more round than there are taken names always suffices, since
the candidates all have distinct lengths. -/
def uniqName (names : List String) (n : String) : String :=
  uniqNameFuel (names.length + 1) names n

/-- The candidate after `k` copies of the marker. -/
def appendMarkers (n : String) : Nat → String
  | 0 => n
  | k + 1 => appendMarkers (n ++ "(2)") k

/-- Conversation-registry resolution (dumpmedia.cc lines 186-206): a
registered thread keeps its name; a fresh thread gets its chat-partner
name, disambiguated with `"(2)"` markers when taken.  Returns the updated
registry and the index of the thread's entry. -/
def resolveConv (conv : List Int × List String) (tid : Int) (chatpartner : String) :
    (List Int × List String) × Nat :=
  match findIdxOf conv.1 tid with
  | some idx => (conv, idx)
  | none =>
    if chatpartner ∈ conv.2 then
      let newname := uniqName conv.2 (chatpartner ++ "(2)")
      ((conv.1 ++ [tid], conv.2 ++ [newname]), conv.2.length)
    else
      ((conv.1 ++ [tid], conv.2 ++ [chatpartner]), conv.2.length)

/-! ## Filename resolution (dumpmedia.cc lines 145-174) -/

/-- Zero-padded two-digit decimal rendering. -/
def pad2 (n : Nat) : String :=
  if n < 10 then "0" ++ toString n else toString n

/-- Year search: subtract year lengths from a day count starting at year
`y`, with fuel; yields the year and the remaining day-of-year. -/
def yearFromDays : Nat → Nat → Nat → Nat × Nat
  | 0, y, days => (y, days)
  | fuel + 1, y, days =>
    let len := if isLeap y then 366 else 365
    if days < len then (y, days) else yearFromDays fuel (y + 1) (days - len)

/-- Month search for a concrete year: subtract month lengths from a
day-of-year, with fuel; yields the month (1-based) and the remaining
day-of-month (0-based). -/
def monthOfYearFromDays : Nat → Nat → Nat → Nat → Nat × Nat
  | 0, _, m, doy => (m, doy)
  | fuel + 1, y, m, doy =>
    if doy < daysInMonth y m then (m, doy)
    else monthOfYearFromDays fuel y (m + 1) (doy - daysInMonth y m)

/-- Modelled from the spec: the fixed local-time stem
`signal-%Y-%m-%d-%H%M%S` that std::put_time/std::localtime render at
dumpmedia.cc line 160, with local time taken as UTC; input is the datum in
epoch seconds. -/
def signalStem (epochSec : Int) : String :=
  let s := epochSec.toNat
  let days := s / 86400
  let rem := s % 86400
  let yd := yearFromDays (days / 365 + 1) 1970 days
  let md := monthOfYearFromDays 12 yd.1 1 yd.2
  "signal-" ++ toString yd.1 ++ "-" ++ pad2 md.1 ++ "-" ++ pad2 (md.2 + 1) ++ "-" ++
    pad2 (rem / 3600) ++ pad2 (rem % 3600 / 60) ++ pad2 (rem % 60)

/-! ## The run environment

External collaborators of dumpMedia, plus the member state it reads: the
database schema (behind SqliteDB::containsTable / tableContainsColumn and
the decision between the two projections), the attachment collection, the
date parser, query execution, and the filesystem/naming primitives. -/

structure Env where
  schema : Schema
  attachments : List Attachment
  parseDate : String → Int × Bool
  exec : SqlQuery → Int → Int → Option (List MetaRow)
  prepareOutputDirectory : String → Bool → Bool
  sanitizeFilename : String → String
  getExtension : String → String
  isDir : String → Bool
  createDir : String → Bool
  makeFilenameUnique : String → String → Option String
  openOk : String → Bool
  writeOk : String → Bool
  isOutgoing : Int → Bool

/-- The damaged-database check at dumpmedia.cc lines 27-31: the part
table must exist and carry display_order, otherwise the run aborts. -/
def dbCheck (env : Env) : Bool :=
  containsTable env.schema "part" && tableContainsColumn env.schema "part" "display_order"

/-- Full-projection detection at dumpmedia.cc lines 65-66: all four
supporting tables present. -/
def fullbackupOf (env : Env) : Bool :=
  containsTable env.schema d_mms_table && containsTable env.schema "thread" &&
    containsTable env.schema "groups" && containsTable env.schema "recipient"

/-- The filter-activity test of dumpmedia.cc line 136:
`!threads.empty() || !daterangelist.empty()`. -/
def filtersActive (threads : List Int) (daterangelist : List String) : Bool :=
  !threads.isEmpty || !daterangelist.isEmpty

/-- The lookup statement of a run, as assembled per attachment at
dumpmedia.cc lines 61-126 (it does not depend on the attachment). -/
def dumpMediaQuery (env : Env) (threads : List Int) (daterangelist : List String) : SqlQuery :=
  buildQueryFromList (fullbackupOf env) threads env.parseDate daterangelist

/-- How one attachment's processing ended. -/
inductive Outcome
  | execFail
  | filteredOut
  | badRowCount (n : Nat)
  | dirCreateFail
  | uniqueFail
  | openFail
  | writeFail
  | written (path : String)
deriving DecidableEq, Repr

/-- Per-attachment result: the outcome, and whether `a->clearData()` ran
(the in-memory payload was released). -/
structure AttResult where
  outcome : Outcome
  cleared : Bool
deriving DecidableEq, Repr

/-- The effective datum (dumpmedia.cc lines 146-149): the received
timestamp when the full projection has one, else the attachment id. -/
def effDatum (env : Env) (a : Attachment) (row : MetaRow) : Int :=
  if fullbackupOf env && row.date_received.isSome then
    row.date_received.getD a.attachmentId
  else a.attachmentId

/-- Filename resolution (dumpmedia.cc lines 145-174): the sanitized
on-record filename when usable, otherwise the timestamp stem, an optional
`_<displayOrder>` suffix, and the mime extension with fallback `attach`. -/
def computeFilename (env : Env) (row : MetaRow) (datum : Int) : String :=
  let filename :=
    match row.file_name with
    | some fn => env.sanitizeFilename fn
    | none => ""
  if filename = "" then
    let stem := signalStem (datum / 1000)
    let ext0 := env.getExtension row.ct
    let ext := if ext0 = "" then "attach" else ext0
    stem ++ (if row.display_order = 0 then "" else "_" ++ toString row.display_order) ++
      "." ++ ext
  else filename

/-- The tail of one attachment's processing (dumpmedia.cc lines 235-281):
uniquify the filename, open, write, close, clear the payload, stamp the
file time.  `clearData()` runs on a successful write and on a failed
write, but not when the open itself failed. -/
def finishWrite (env : Env) (targetdir filename : String) (conv : List Int × List String) :
    AttResult × (List Int × List String) :=
  match env.makeFilenameUnique targetdir filename with
  | none => (⟨Outcome.uniqueFail, false⟩, conv)
  | some fn =>
    let path := targetdir ++ "/" ++ fn
    if !env.openOk path then (⟨Outcome.openFail, false⟩, conv)
    else if !env.writeOk path then (⟨Outcome.writeFail, true⟩, conv)
    else (⟨Outcome.written path, true⟩, conv)

/-- The conversation-subdirectory block (dumpmedia.cc lines 178-233):
sanitize the chat partner (falling back to `Contact <tid>`), resolve the
registry entry, create `<dir>/<name>` and `<dir>/<name>/<sent|received>`
as needed.  Yields the target directory (`none` when a directory could
not be created) and the possibly-extended registry. -/
def convDirStep (env : Env) (dir : String) (conv : List Int × List String)
    (row : MetaRow) : Option String × (List Int × List String) :=
  let tid := row.thread_id.getD 0
  let cp0 := env.sanitizeFilename (row.chatpartner.getD "")
  let chatpartner := if cp0 = "" then "Contact " ++ toString tid else cp0
  let resolved := resolveConv conv tid chatpartner
  let conv2 := resolved.1
  let cname := conv2.2.getD resolved.2 ""
  if !env.isDir (dir ++ "/" ++ cname) && !env.createDir (dir ++ "/" ++ cname) then
    (none, conv2)
  else
    let targetdir := dir ++ "/" ++ cname ++ "/" ++
      (if env.isOutgoing (row.msg_box.getD 0) then "sent" else "received")
    if !env.isDir targetdir && !env.createDir targetdir then (none, conv2)
    else (some targetdir, conv2)

/-- Processing of the single metadata row (dumpmedia.cc lines 145-281):
datum, filename, conversation subdirectory (full mode with thread,
chat-partner and direction known), directory creation, then the write. -/
def mainProcess (env : Env) (dir : String) (conv : List Int × List String)
    (a : Attachment) (row : MetaRow) : AttResult × (List Int × List String) :=
  let datum := effDatum env a row
  let filename := computeFilename env row datum
  if fullbackupOf env && row.thread_id.isSome && row.chatpartner.isSome && row.msg_box.isSome
  then
    match convDirStep env dir conv row with
    | (none, conv2) => (⟨Outcome.dirCreateFail, false⟩, conv2)
    | (some targetdir, conv2) => finishWrite env targetdir filename conv2
  else finishWrite env dir filename conv

/-- One attachment's processing (dumpmedia.cc lines 48-281): run the
lookup; a failed execution is fatal; zero rows under an active filter is a
silent skip; any other row count than one is a logged skip; a single row
is processed. -/
def processAttachment (env : Env) (q : SqlQuery) (dir : String) (fa : Bool)
    (conv : List Int × List String) (a : Attachment) :
    AttResult × (List Int × List String) :=
  match env.exec q a.rowId a.attachmentId with
  | none => (⟨Outcome.execFail, false⟩, conv)
  | some results =>
    if results.length == 0 && fa then (⟨Outcome.filteredOut, false⟩, conv)
    else
      match results with
      | [row] => mainProcess env dir conv a row
      | _ => (⟨Outcome.badRowCount results.length, false⟩, conv)

/-- The attachment loop: a failed lookup execution returns failure for
the whole run; every other outcome lets the loop continue. -/
def runAttachments (env : Env) (q : SqlQuery) (dir : String) (fa : Bool) :
    List Attachment → (List Int × List String) → Bool × List AttResult
  | [], _ => (true, [])
  | a :: rest, conv =>
    let step := processAttachment env q dir fa conv a
    if step.1.outcome = Outcome.execFail then (false, [step.1])
    else
      let tail := runAttachments env q dir fa rest step.2
      (tail.1, step.1 :: tail.2)

/-- SignalBackup::dumpMedia (dumpmedia.cc lines 22-289): the
damaged-database check, output-directory preparation, then the attachment
loop.  Returns the run's boolean outcome and the per-attachment results. -/
def dumpMedia (env : Env) (dir : String) (daterangelist : List String)
    (threads : List Int) (overwrite : Bool) : Bool × List AttResult :=
  if !dbCheck env then (false, [])
  else if !env.prepareOutputDirectory dir overwrite then (false, [])
  else
    runAttachments env (dumpMediaQuery env threads daterangelist) dir
      (filtersActive threads daterangelist) env.attachments ([], [])

/-! ## Derived notions the theorems quantify over -/

/-- A sequence of registry resolutions, as performed over a run. -/
def runResolves (ops : List (Int × String)) (conv : List Int × List String) :
    List Int × List String :=
  ops.foldl (fun c op => (resolveConv c op.1 op.2).1) conv

/-- Registry well-formedness: no duplicate thread ids, no duplicate
assigned names, parallel vectors of equal length. -/
def GoodConv (conv : List Int × List String) : Prop :=
  conv.1.Nodup ∧ conv.2.Nodup ∧ conv.1.length = conv.2.length

/-- The name the registry holds for a thread id, if registered. -/
def lookupName (conv : List Int × List String) (tid : Int) : Option String :=
  (findIdxOf conv.1 tid).bind (fun i => conv.2[i]?)

/-! ## Concrete fixtures for the closed witness instances -/

/-- Columns of the part table that the minimal projection and the damaged
database check touch. -/
def partColumns : List String :=
  ["_id", "unique_id", "mid", "ct", "file_name", "display_order"]

/-- A schema holding only the part table: the minimal run mode. -/
def minimalSchema : Schema := [("part", partColumns)]

/-- A schema with all tables the full projection joins. -/
def fullSchema : Schema :=
  [("part", partColumns),
   (d_mms_table, ["_id", "date_received", d_mms_type, "thread_id"]),
   ("thread", ["_id", d_thread_recipient_id]),
   ("recipient", ["_id", "group_id", d_recipient_system_joined_name,
                  "profile_joined_name", d_recipient_profile_given_name]),
   ("groups", ["group_id", "title"])]

/-- A concrete attachment frame. -/
def att0 : Attachment := ⟨1, 1⟩

/-- A concrete run environment over the minimal schema; the witness
instances below derive their variants from it. -/
def baseEnv : Env :=
  { schema := minimalSchema
    attachments := [att0]
    parseDate := dateToMSecsSinceEpoch
    exec := fun _ _ _ => some []
    prepareOutputDirectory := fun _ _ => true
    sanitizeFilename := fun s => s
    getExtension := fun _ => ""
    isDir := fun _ => false
    createDir := fun _ => true
    makeFilenameUnique := fun _ f => some f
    openOk := fun _ => true
    writeOk := fun _ => true
    isOutgoing := fun _ => false }

/-- Environment whose store lost every table: the damaged-database check
fails. -/
def damagedEnv : Env := { baseEnv with schema := [] }

/-- A metadata row with an on-record filename and nothing else of note. -/
def namedRow : MetaRow :=
  { ct := "image/png", file_name := some "pic", display_order := 0,
    date_received := none, msg_box := none, thread_id := none, chatpartner := none }

/-- A metadata row with no on-record filename, a known received
timestamp (2023-01-01 00:00:00 UTC) and a recognized mime type. -/
def pngRow : MetaRow :=
  { ct := "image/png", file_name := none, display_order := 0,
    date_received := some 1672531200000, msg_box := none, thread_id := none,
    chatpartner := none }

/-- Environment whose lookup finds `namedRow` but whose target file
cannot be opened for writing. -/
def openFailEnv : Env :=
  { baseEnv with exec := fun _ _ _ => some [namedRow], openOk := fun _ => false }

/-- Environment whose lookup finds `namedRow`, the open succeeds, the
write fails. -/
def writeFailEnv : Env :=
  { baseEnv with exec := fun _ _ _ => some [namedRow], writeOk := fun _ => false }

/-- Full-schema environment with a mime table entry for image/png. -/
def pngEnv : Env :=
  { baseEnv with
    schema := fullSchema
    exec := fun _ _ _ => some [pngRow]
    getExtension := fun m => if m == "image/png" then "png" else "" }

/-- Metadata row of an incoming attachment of thread 1, chat partner
Alice. -/
def aliceRow1 : MetaRow :=
  { ct := "image/jpeg", file_name := some "a.jpg", display_order := 0,
    date_received := some 1672531200000, msg_box := some 1, thread_id := some 1,
    chatpartner := some "Alice" }

/-- Metadata row of an incoming attachment of a second, distinct thread
whose chat partner is also named Alice. -/
def aliceRow2 : MetaRow :=
  { ct := "image/jpeg", file_name := some "b.jpg", display_order := 0,
    date_received := some 1672531200000, msg_box := some 1, thread_id := some 2,
    chatpartner := some "Alice" }

/-- Full-schema environment holding two attachments whose lookups resolve
to two distinct threads that share the chat-partner name Alice. -/
def aliceEnv : Env :=
  { baseEnv with
    schema := fullSchema
    attachments := [⟨1, 1⟩, ⟨2, 2⟩]
    exec := fun _ rid _ => if rid == 1 then some [aliceRow1] else some [aliceRow2] }

/-! ## Helper lemmas -/

theorem findIdxOf_eq_none_iff (l : List Int) (t : Int) :
    findIdxOf l t = none ↔ t ∉ l := by
  induction l with
  | nil => simp [findIdxOf]
  | cons x xs ih =>
    by_cases hx : x = t
    · subst hx; simp [findIdxOf]
    · simp [findIdxOf, hx, ih, Ne.symm hx]

theorem findIdxOf_append_of_mem (l l2 : List Int) (t : Int) (h : t ∈ l) :
    findIdxOf (l ++ l2) t = findIdxOf l t := by
  induction l with
  | nil => simp at h
  | cons x xs ih =>
    by_cases hx : x = t
    · simp [findIdxOf, hx]
    · have ht : t ∈ xs := by
        rcases List.mem_cons.mp h with h1 | h1
        · exact absurd h1.symm hx
        · exact h1
      simp [findIdxOf, hx, ih ht]

theorem findIdxOf_lt_length (l : List Int) (t : Int) (i : Nat)
    (h : findIdxOf l t = some i) : i < l.length := by
  induction l generalizing i with
  | nil => simp [findIdxOf] at h
  | cons x xs ih =>
    rw [List.length_cons]
    by_cases hx : x = t
    · simp [findIdxOf, hx] at h
      omega
    · simp [findIdxOf, hx] at h
      rcases h with ⟨j, hj, hji⟩
      have := ih j hj
      omega

theorem countP_lt_of_mem {α : Type} (l : List α) (p q : α → Bool)
    (himp : ∀ x, p x = true → q x = true) (a : α) (ha : a ∈ l)
    (hq : q a = true) (hp : p a = false) : l.countP p < l.countP q := by
  induction l with
  | nil => simp at ha
  | cons b t ih =>
    rw [List.countP_cons, List.countP_cons]
    have hmono : t.countP p ≤ t.countP q :=
      List.countP_mono_left (fun x _ hx => himp x hx)
    rcases List.mem_cons.mp ha with hb | hb
    · subst hb
      rw [hp, hq]
      simp only [Bool.false_eq_true, if_false, if_true]
      omega
    · have hlt := ih hb
      by_cases hpb : p b = true
      · rw [hpb, himp b hpb]
        omega
      · have hpb2 : p b = false := by simpa using hpb
        rw [hpb2]
        simp only [Bool.false_eq_true, if_false]
        split <;> omega

theorem uniqNameFuel_spec (names : List String) :
    ∀ (fuel : Nat) (n : String),
      names.countP (fun m => decide (n.length ≤ m.length)) < fuel →
      ∃ k, uniqNameFuel fuel names n = appendMarkers n k
        ∧ appendMarkers n k ∉ names
        ∧ ∀ j, j < k → appendMarkers n j ∈ names := by
  intro fuel
  induction fuel with
  | zero => intro n h; omega
  | succ f ih =>
    intro n hcount
    by_cases hmem : n ∈ names
    · have hstep : names.countP (fun m => decide ((n ++ "(2)").length ≤ m.length)) <
          names.countP (fun m => decide (n.length ≤ m.length)) := by
        have h3 : "(2)".length = 3 := rfl
        have hlen : (n ++ "(2)").length = n.length + 3 := by
          rw [String.length_append, h3]
        have himp : ∀ x : String,
            (fun m => decide ((n ++ "(2)").length ≤ m.length)) x = true →
            (fun m => decide (n.length ≤ m.length)) x = true := by
          intro x hx
          simp only [decide_eq_true_eq] at hx ⊢
          rw [hlen] at hx
          omega
        apply countP_lt_of_mem names _ _ himp n hmem
        case hq => simp
        case hp => simp [hlen]
      obtain ⟨k, hk, hnm, hmin⟩ := ih (n ++ "(2)") (by omega)
      refine ⟨k + 1, ?_, ?_, ?_⟩
      · simpa [uniqNameFuel, hmem] using hk
      · exact hnm
      · intro j hj
        match j with
        | 0 => exact hmem
        | j0 + 1 => exact hmin j0 (by omega)
    · exact ⟨0, by simp [uniqNameFuel, hmem, appendMarkers], hmem, fun j hj => absurd hj (by omega)⟩

theorem uniqName_spec (names : List String) (n : String) :
    ∃ k, uniqName names n = appendMarkers n k
      ∧ appendMarkers n k ∉ names
      ∧ ∀ j, j < k → appendMarkers n j ∈ names := by
  apply uniqNameFuel_spec
  have := List.countP_le_length (p := fun m => decide (n.length ≤ m.length)) (l := names)
  omega

theorem uniqName_not_mem (names : List String) (n : String) :
    uniqName names n ∉ names := by
  obtain ⟨k, hk, hnm, _⟩ := uniqName_spec names n
  rw [hk]; exact hnm

theorem nodup_append_singleton {α : Type} (l : List α) (a : α)
    (hl : l.Nodup) (ha : a ∉ l) : (l ++ [a]).Nodup := by
  rw [List.nodup_append]
  refine ⟨hl, List.nodup_singleton a, ?_⟩
  intro x hx hxa
  rw [List.mem_singleton] at hxa
  subst hxa
  exact ha hx

theorem resolveConv_invariant (conv : List Int × List String) (tid : Int) (name : String)
    (h : GoodConv conv) :
    GoodConv (resolveConv conv tid name).1
  ∧ (∃ ts, (resolveConv conv tid name).1.1 = conv.1 ++ ts)
  ∧ (∃ ns, (resolveConv conv tid name).1.2 = conv.2 ++ ns) := by
  obtain ⟨h1, h2, hlen⟩ := h
  cases hidx : findIdxOf conv.1 tid with
  | some idx =>
    have hres : resolveConv conv tid name = (conv, idx) := by
      simp [resolveConv, hidx]
    rw [hres]
    exact ⟨⟨h1, h2, hlen⟩, ⟨[], by simp⟩, ⟨[], by simp⟩⟩
  | none =>
    have htid : tid ∉ conv.1 := (findIdxOf_eq_none_iff conv.1 tid).mp hidx
    by_cases hmem : name ∈ conv.2
    · have hnm := uniqName_not_mem conv.2 (name ++ "(2)")
      have hres : resolveConv conv tid name =
          ((conv.1 ++ [tid], conv.2 ++ [uniqName conv.2 (name ++ "(2)")]), conv.2.length) := by
        simp [resolveConv, hidx, hmem]
      rw [hres]
      refine ⟨⟨nodup_append_singleton conv.1 tid h1 htid,
        nodup_append_singleton conv.2 _ h2 hnm, by simp [hlen]⟩,
        ⟨[tid], rfl⟩, ⟨[uniqName conv.2 (name ++ "(2)")], rfl⟩⟩
    · have hres : resolveConv conv tid name =
          ((conv.1 ++ [tid], conv.2 ++ [name]), conv.2.length) := by
        simp [resolveConv, hidx, hmem]
      rw [hres]
      refine ⟨⟨nodup_append_singleton conv.1 tid h1 htid,
        nodup_append_singleton conv.2 name h2 hmem, by simp [hlen]⟩,
        ⟨[tid], rfl⟩, ⟨[name], rfl⟩⟩

theorem lookupName_extend (conv : List Int × List String) (ts : List Int)
    (ns : List String) (tid : Int) (h : tid ∈ conv.1)
    (hlen : conv.1.length = conv.2.length) :
    lookupName (conv.1 ++ ts, conv.2 ++ ns) tid = lookupName conv tid := by
  unfold lookupName
  rw [findIdxOf_append_of_mem conv.1 ts tid h]
  cases hidx : findIdxOf conv.1 tid with
  | none => simp
  | some i =>
    have hi := findIdxOf_lt_length conv.1 tid i hidx
    simp only [Option.bind_eq_bind, Option.some_bind]
    rw [List.getElem?_append_left (by omega)]

theorem runResolves_invariant (ops : List (Int × String)) :
    ∀ conv : List Int × List String, GoodConv conv →
      GoodConv (runResolves ops conv)
    ∧ (∃ ts, (runResolves ops conv).1 = conv.1 ++ ts)
    ∧ (∃ ns, (runResolves ops conv).2 = conv.2 ++ ns)
    ∧ (∀ tid, tid ∈ conv.1 →
        lookupName (runResolves ops conv) tid = lookupName conv tid) := by
  induction ops with
  | nil =>
    intro conv h
    exact ⟨h, ⟨[], by simp [runResolves]⟩, ⟨[], by simp [runResolves]⟩,
      fun tid _ => by simp [runResolves]⟩
  | cons op rest ih =>
    intro conv h
    have hstep := resolveConv_invariant conv op.1 op.2 h
    obtain ⟨hg, ⟨ts1, hts1⟩, ⟨ns1, hns1⟩⟩ := hstep
    have hrun : runResolves (op :: rest) conv = runResolves rest (resolveConv conv op.1 op.2).1 := by
      simp [runResolves]
    obtain ⟨hg2, ⟨ts2, hts2⟩, ⟨ns2, hns2⟩, hlook⟩ := ih (resolveConv conv op.1 op.2).1 hg
    refine ⟨hrun ▸ hg2, ⟨ts1 ++ ts2, ?_⟩, ⟨ns1 ++ ns2, ?_⟩, ?_⟩
    · rw [hrun, hts2, hts1, List.append_assoc]
    · rw [hrun, hns2, hns1, List.append_assoc]
    · intro tid htid
      have htid2 : tid ∈ (resolveConv conv op.1 op.2).1.1 := by
        rw [hts1]; exact List.mem_append_left ts1 htid
      have hcv : (resolveConv conv op.1 op.2).1 = (conv.1 ++ ts1, conv.2 ++ ns1) := by
        apply Prod.ext <;> simp [hts1, hns1]
      calc lookupName (runResolves (op :: rest) conv) tid
          = lookupName (runResolves rest (resolveConv conv op.1 op.2).1) tid := by rw [hrun]
        _ = lookupName (resolveConv conv op.1 op.2).1 tid := hlook tid htid2
        _ = lookupName (conv.1 ++ ts1, conv.2 ++ ns1) tid := by rw [hcv]
        _ = lookupName conv tid := lookupName_extend conv ts1 ns1 tid htid h.2.2

theorem foldl_dateRangeStep (pd : String → Int × Bool) (l : List (String × String)) :
    ∀ acc : List (Int × Int) × List (String × String),
      l.foldl (dateRangeStep pd) acc =
        (acc.1 ++ (l.filter (pairValid pd)).map (roundRange pd),
         acc.2 ++ l.filter (fun p => !pairValid pd p)) := by
  induction l with
  | nil => intro acc; simp
  | cons p t ih =>
    intro acc
    by_cases hv : pairValid pd p = true
    · have hcond : ((pd p.1).1 == -1 || (pd p.2).1 == -1 || decide ((pd p.2).1 < (pd p.1).1))
          = false := by
        simpa [pairValid] using hv
      have hstep : dateRangeStep pd acc p = (acc.1 ++ [roundRange pd p], acc.2) := by
        simp only [dateRangeStep, roundRange, hcond]
        simp
      rw [List.foldl_cons, hstep, ih]
      simp [hv]
    · have hv2 : pairValid pd p = false := by simpa using hv
      have hcond : ((pd p.1).1 == -1 || (pd p.2).1 == -1 || decide ((pd p.2).1 < (pd p.1).1))
          = true := by
        cases hc : ((pd p.1).1 == -1 || (pd p.2).1 == -1 || decide ((pd p.2).1 < (pd p.1).1)) with
        | false => rw [pairValid, hc] at hv2; simp at hv2
        | true => rfl
      have hstep : dateRangeStep pd acc p = (acc.1, acc.2 ++ [p]) := by
        simp only [dateRangeStep, hcond]
        simp
      rw [List.foldl_cons, hstep, ih]
      simp [hv2]

theorem finishWrite_result (env : Env) (td fn : String) (conv : List Int × List String) :
    ((finishWrite env td fn conv).1 = ⟨Outcome.uniqueFail, false⟩
    ∨ (finishWrite env td fn conv).1 = ⟨Outcome.openFail, false⟩
    ∨ (finishWrite env td fn conv).1 = ⟨Outcome.writeFail, true⟩
    ∨ ∃ p, (finishWrite env td fn conv).1 = ⟨Outcome.written p, true⟩) := by
  unfold finishWrite
  cases env.makeFilenameUnique td fn with
  | none => simp
  | some f =>
    by_cases ho : env.openOk (td ++ "/" ++ f)
    · by_cases hw : env.writeOk (td ++ "/" ++ f)
      · simp [ho, hw]
      · simp [ho, hw]
    · simp [ho]

theorem mainProcess_result (env : Env) (dir : String) (conv : List Int × List String)
    (a : Attachment) (row : MetaRow) :
    ((mainProcess env dir conv a row).1 = ⟨Outcome.dirCreateFail, false⟩
    ∨ (mainProcess env dir conv a row).1 = ⟨Outcome.uniqueFail, false⟩
    ∨ (mainProcess env dir conv a row).1 = ⟨Outcome.openFail, false⟩
    ∨ (mainProcess env dir conv a row).1 = ⟨Outcome.writeFail, true⟩
    ∨ ∃ p, (mainProcess env dir conv a row).1 = ⟨Outcome.written p, true⟩) := by
  unfold mainProcess
  split
  · rcases hc : convDirStep env dir conv row with ⟨_ | td, conv2⟩
    · simp
    · exact Or.inr (finishWrite_result env _ _ _)
  · exact Or.inr (finishWrite_result env _ _ _)

theorem processAttachment_result (env : Env) (q : SqlQuery) (dir : String) (fa : Bool)
    (conv : List Int × List String) (a : Attachment) :
    (env.exec q a.rowId a.attachmentId = none ∧
      processAttachment env q dir fa conv a = (⟨Outcome.execFail, false⟩, conv))
  ∨ (env.exec q a.rowId a.attachmentId ≠ none ∧
      ((processAttachment env q dir fa conv a).1 = ⟨Outcome.filteredOut, false⟩
      ∨ (∃ n, (processAttachment env q dir fa conv a).1 = ⟨Outcome.badRowCount n, false⟩)
      ∨ (processAttachment env q dir fa conv a).1 = ⟨Outcome.dirCreateFail, false⟩
      ∨ (processAttachment env q dir fa conv a).1 = ⟨Outcome.uniqueFail, false⟩
      ∨ (processAttachment env q dir fa conv a).1 = ⟨Outcome.openFail, false⟩
      ∨ (processAttachment env q dir fa conv a).1 = ⟨Outcome.writeFail, true⟩
      ∨ ∃ p, (processAttachment env q dir fa conv a).1 = ⟨Outcome.written p, true⟩)) := by
  cases hexec : env.exec q a.rowId a.attachmentId with
  | none =>
    left
    exact ⟨rfl, by simp [processAttachment, hexec]⟩
  | some results =>
    right
    refine ⟨by simp, ?_⟩
    have hpa : processAttachment env q dir fa conv a =
        (if results.length == 0 && fa then (⟨Outcome.filteredOut, false⟩, conv)
         else
           match results with
           | [row] => mainProcess env dir conv a row
           | _ => (⟨Outcome.badRowCount results.length, false⟩, conv)) := by
      simp [processAttachment, hexec]
    rw [hpa]
    by_cases hf : (results.length == 0 && fa) = true
    · simp [hf]
    · have hf2 : (results.length == 0 && fa) = false := by simpa using hf
      rw [hf2]
      simp only [Bool.false_eq_true, if_false]
      match results with
      | [] => exact Or.inr (Or.inl ⟨0, rfl⟩)
      | [row] =>
        rcases mainProcess_result env dir conv a row with h1 | h1 | h1 | h1 | h1
        · exact Or.inr (Or.inr (Or.inl h1))
        · exact Or.inr (Or.inr (Or.inr (Or.inl h1)))
        · exact Or.inr (Or.inr (Or.inr (Or.inr (Or.inl h1))))
        · exact Or.inr (Or.inr (Or.inr (Or.inr (Or.inr (Or.inl h1)))))
        · exact Or.inr (Or.inr (Or.inr (Or.inr (Or.inr (Or.inr h1)))))
      | r1 :: r2 :: rs => exact Or.inr (Or.inl ⟨(r1 :: r2 :: rs).length, rfl⟩)

theorem processAttachment_execFail_iff (env : Env) (q : SqlQuery) (dir : String)
    (fa : Bool) (conv : List Int × List String) (a : Attachment) :
    (processAttachment env q dir fa conv a).1.outcome = Outcome.execFail ↔
      env.exec q a.rowId a.attachmentId = none := by
  rcases processAttachment_result env q dir fa conv a with ⟨h1, h2⟩ | ⟨h1, h2⟩
  · rw [h2]
    simp [h1]
  · constructor
    · intro hout
      exfalso
      rcases h2 with h | ⟨n, h⟩ | h | h | h | h | ⟨p, h⟩ <;> rw [h] at hout <;> simp at hout
    · intro h
      exact absurd h h1

theorem runAttachments_true_iff (env : Env) (q : SqlQuery) (dir : String) (fa : Bool)
    (l : List Attachment) :
    ∀ conv : List Int × List String,
      (runAttachments env q dir fa l conv).1 = true ↔
        ∀ a ∈ l, env.exec q a.rowId a.attachmentId ≠ none := by
  induction l with
  | nil =>
    intro conv
    simp [runAttachments]
  | cons a rest ih =>
    intro conv
    by_cases hfail : (processAttachment env q dir fa conv a).1.outcome = Outcome.execFail
    · have hnone := (processAttachment_execFail_iff env q dir fa conv a).mp hfail
      simp only [runAttachments, hfail, if_pos]
      simp only [List.mem_cons, ne_eq]
      constructor
      · intro h
        exact absurd h (by simp)
      · intro h
        exact absurd hnone (h a (Or.inl rfl))
    · have hsome : env.exec q a.rowId a.attachmentId ≠ none :=
        fun h => hfail ((processAttachment_execFail_iff env q dir fa conv a).mpr h)
      have hrun : runAttachments env q dir fa (a :: rest) conv =
          ((runAttachments env q dir fa rest (processAttachment env q dir fa conv a).2).1,
           (processAttachment env q dir fa conv a).1 ::
             (runAttachments env q dir fa rest (processAttachment env q dir fa conv a).2).2) := by
        simp [runAttachments, hfail]
      rw [hrun]
      simp only [List.mem_cons]
      constructor
      · intro h x hx
        rcases hx with hx | hx
        · subst hx; exact hsome
        · exact (ih _).mp h x hx
      · intro h
        exact (ih _).mpr (fun x hx => h x (Or.inr hx))

theorem dbCheck_false_query_unexecutable (env : Env) (fb : Bool) (ths : List Int)
    (pd : String → Int × Bool) (drl : List String) (h : dbCheck env = false) :
    queryExecutes env.schema (buildQueryFromList fb ths pd drl) = false := by
  have hpartmem : "part" ∈ (buildQueryFromList fb ths pd drl).fromTables := by
    cases fb <;> simp [buildQueryFromList, buildQuery]
  by_cases hp : containsTable env.schema "part" = true
  · have hd : tableContainsColumn env.schema "part" "display_order" = false := by
      rw [dbCheck, hp] at h
      simpa using h
    have hmem : (some "part", "display_order") ∈ queryRefs (buildQueryFromList fb ths pd drl) := by
      apply List.mem_append_left
      cases fb <;> simp [buildQueryFromList, buildQuery, fullProjRefs, minimalProjRefs]
    have hrefs : (queryRefs (buildQueryFromList fb ths pd drl)).all
        (refOk env.schema (buildQueryFromList fb ths pd drl).fromTables) = false := by
      rw [List.all_eq_false]
      refine ⟨(some "part", "display_order"), hmem, ?_⟩
      simp [refOk, hd]
    rw [queryExecutes, hrefs, Bool.and_false]
  · have hp2 : containsTable env.schema "part" = false := by simpa using hp
    have htbl : (buildQueryFromList fb ths pd drl).fromTables.all
        (containsTable env.schema) = false := by
      rw [List.all_eq_false]
      exact ⟨"part", hpartmem, by simp [hp2]⟩
    rw [queryExecutes, htbl, Bool.and_false, Bool.false_and]

theorem fullSchema_executes_eq_closed (ths : List Int) (rs : List (Int × Int)) (b : Bool) :
    queryExecutes fullSchema { buildQuery true ths rs with closed := b } = b := by
  rcases ths with _ | ⟨t, ts⟩ <;> rcases rs with _ | ⟨r, rt⟩ <;>
    · show ((b && true) && true) = b
      simp

theorem minSchema_query_fails (ths : List Int) (rs : List (Int × Int)) (b : Bool)
    (h : ths ≠ [] ∨ rs ≠ []) :
    queryExecutes minimalSchema { buildQuery false ths rs with closed := b } = false := by
  rcases ths with _ | ⟨t, ts⟩ <;> rcases rs with _ | ⟨r, rt⟩
  · rcases h with h | h <;> exact absurd rfl h
  · show ((b && true) && false) = false
    simp
  · show ((b && true) && false) = false
    simp
  · show ((b && true) && false) = false
    simp

theorem dateClauseTerminated_false_iff (pd : String → Int × Bool) (drl : List String)
    (h : drl.length % 2 = 0) :
    dateClauseTerminated pd drl = false ↔
      ((processDateRanges pd drl).1 ≠ [] ∧
        ∃ p, (chunkPairs drl).getLast? = some p ∧ pairValid pd p = false) := by
  have heven : (drl.length % 2 == 0) = true := by simp [h]
  have hterm : dateClauseTerminated pd drl =
      ((processDateRanges pd drl).1.isEmpty ||
        (match (chunkPairs drl).getLast? with
         | none => true
         | some p => pairValid pd p)) := by
    simp [dateClauseTerminated, heven]
  rw [hterm, Bool.or_eq_false_iff]
  constructor
  · rintro ⟨h1, h2⟩
    constructor
    · intro hnil
      rw [hnil] at h1
      simp at h1
    · cases hl : (chunkPairs drl).getLast? with
      | none => rw [hl] at h2; simp at h2
      | some p => rw [hl] at h2; exact ⟨p, rfl, h2⟩
  · rintro ⟨hne, p, hl, hpv⟩
    refine ⟨?_, ?_⟩
    · cases hv : (processDateRanges pd drl).1 with
      | nil => exact absurd hv hne
      | cons x xs => rfl
    · rw [hl]
      simp [hpv]

theorem dateRange_mem_conds (fb : Bool) (ths : List Int) (rs : List (Int × Int))
    (h : rs ≠ []) : QCond.dateRange rs ∈ (buildQuery fb ths rs).conds := by
  have hne : rs.isEmpty = false := by
    cases rs with
    | nil => exact absurd rfl h
    | cons r t => rfl
  simp [buildQuery, hne]

/-! ## Claim theorems -/

/-- Claim C1, counterexample: in minimal mode (here: a database holding only the
part table, which passes the damaged-database check), an active thread
allow-list makes the assembled lookup reference `thread._id` even though
the thread table is not joined, so the relational store cannot execute the
statement — refuting the claim that every mode and filter combination
yields an executable lookup. -/
theorem minimal_mode_thread_filter_query_unexecutable :
    dbCheck baseEnv = true ∧ fullbackupOf baseEnv = false ∧
    queryExecutes baseEnv.schema (dumpMediaQuery baseEnv [5] []) = false := by
  decide

/-- Claim C1, amended: in full mode the assembled lookup is executable, for
every thread allow-list, exactly when the date clause is properly
terminated — in particular for any thread filter with no date filter, or
with a date-range list whose final pair is valid; a trailing invalid pair
after a surviving valid one leaves the clause unterminated and execution
fails even in full mode.  In minimal mode the lookup is executable only
with both filters absent: an active thread filter references the
unjoined thread table, a surviving date filter the absent date_received
column, and either makes execution fail. -/
theorem query_filter_combinations (ths : List Int) (pd : String → Int × Bool)
    (drl : List String) :
    queryExecutes fullSchema (buildQueryFromList true ths pd drl) =
      dateClauseTerminated pd drl
  ∧ queryExecutes minimalSchema (buildQueryFromList false [] pd []) = true
  ∧ (ths ≠ [] → queryExecutes minimalSchema (buildQueryFromList false ths pd drl) = false)
  ∧ ((processDateRanges pd drl).1 ≠ [] →
      queryExecutes minimalSchema (buildQueryFromList false ths pd drl) = false) := by
  refine ⟨?_, rfl, ?_, ?_⟩
  · show queryExecutes fullSchema
      { buildQuery true ths (processDateRanges pd drl).1 with
        closed := dateClauseTerminated pd drl } = dateClauseTerminated pd drl
    exact fullSchema_executes_eq_closed ths _ _
  · intro h
    show queryExecutes minimalSchema
      { buildQuery false ths (processDateRanges pd drl).1 with
        closed := dateClauseTerminated pd drl } = false
    exact minSchema_query_fails ths _ _ (Or.inl h)
  · intro h
    show queryExecutes minimalSchema
      { buildQuery false ths (processDateRanges pd drl).1 with
        closed := dateClauseTerminated pd drl } = false
    exact minSchema_query_fails ths _ _ (Or.inr h)

/-- Witness for query_filter_combinations at a concrete thread filter
and a terminated date range. -/
theorem query_filter_combinations_witness :
    dateClauseTerminated dateToMSecsSinceEpoch ["2023-01-01", "2023-01-01"] = true
  ∧ queryExecutes fullSchema (buildQueryFromList true [5] dateToMSecsSinceEpoch
        ["2023-01-01", "2023-01-01"]) =
      dateClauseTerminated dateToMSecsSinceEpoch ["2023-01-01", "2023-01-01"]
  ∧ queryExecutes minimalSchema (buildQueryFromList false [5] dateToMSecsSinceEpoch
        ["2023-01-01", "2023-01-01"]) = false := by
  have h := query_filter_combinations [5] dateToMSecsSinceEpoch ["2023-01-01", "2023-01-01"]
  exact ⟨by decide, h.1, h.2.2.1 (by decide)⟩

/-- Claim C2: dumpMedia returns failure exactly when the output root cannot be
prepared, the damaged-database check fails, or executing the lookup for
some attachment fails; in every other situation — including when every
attachment is skipped — it returns success.  The second conjunct
identifies the damaged-database check with the second fatal situation of
the claim: when it fails, the lookup statement is statically unexecutable
(its projection references part.display_order). -/
theorem dumpMedia_fatal_conditions (env : Env) (dir : String) (daterangelist : List String)
    (threads : List Int) (overwrite : Bool) :
    ((dumpMedia env dir daterangelist threads overwrite).1 = false ↔
      (env.prepareOutputDirectory dir overwrite = false ∨ dbCheck env = false ∨
        ∃ a ∈ env.attachments,
          env.exec (dumpMediaQuery env threads daterangelist) a.rowId a.attachmentId = none))
  ∧ (dbCheck env = false →
      queryExecutes env.schema (dumpMediaQuery env threads daterangelist) = false) := by
  constructor
  · by_cases hdb : dbCheck env = true
    · by_cases hprep : env.prepareOutputDirectory dir overwrite = true
      · have hrun := runAttachments_true_iff env (dumpMediaQuery env threads daterangelist)
          dir (filtersActive threads daterangelist) env.attachments (([], []))
        simp only [dumpMedia, hdb, hprep, Bool.not_true, Bool.false_eq_true, if_false]
        rw [← Bool.not_eq_true, hrun]
        push_neg
        simp [hprep, hdb]
      · have hprep2 : env.prepareOutputDirectory dir overwrite = false := by simpa using hprep
        simp [dumpMedia, hdb, hprep2]
    · have hdb2 : dbCheck env = false := by simpa using hdb
      simp [dumpMedia, hdb2]
  · intro h
    show queryExecutes env.schema
      (buildQueryFromList (fullbackupOf env) threads env.parseDate daterangelist) = false
    exact dbCheck_false_query_unexecutable env (fullbackupOf env) threads
      env.parseDate daterangelist h

/-- Witness for dumpMedia_fatal_conditions on a store that lost every
table. -/
theorem dumpMedia_fatal_conditions_witness :
    dbCheck damagedEnv = false
  ∧ queryExecutes damagedEnv.schema (dumpMediaQuery damagedEnv [] []) = false
  ∧ (dumpMedia damagedEnv "out" [] [] false).1 = false := by
  have h := dumpMedia_fatal_conditions damagedEnv "out" [] [] false
  exact ⟨by decide, h.2 (by decide), h.1.mpr (Or.inr (Or.inl (by decide)))⟩

/-- Claim C3: zero rows under an active filter is a silent skip; zero rows with
no filter active, or more than one row in any case, is a logged
inconsistency skip; in all these cases the registry is untouched and the
run continues with the next attachment. -/
theorem lookup_cardinality_contract (env : Env) (q : SqlQuery) (dir : String) (fa : Bool)
    (conv : List Int × List String) (a : Attachment) (rows : List MetaRow)
    (hexec : env.exec q a.rowId a.attachmentId = some rows) :
    (rows = [] → fa = true →
      processAttachment env q dir fa conv a = (⟨Outcome.filteredOut, false⟩, conv))
  ∧ (rows = [] → fa = false →
      processAttachment env q dir fa conv a = (⟨Outcome.badRowCount 0, false⟩, conv))
  ∧ (2 ≤ rows.length →
      processAttachment env q dir fa conv a = (⟨Outcome.badRowCount rows.length, false⟩, conv))
  ∧ (rows.length ≠ 1 → ∀ rest : List Attachment,
      (runAttachments env q dir fa (a :: rest) conv).1 =
        (runAttachments env q dir fa rest conv).1) := by
  refine ⟨?_, ?_, ?_, ?_⟩
  · rintro rfl rfl
    simp [processAttachment, hexec]
  · rintro rfl rfl
    simp [processAttachment, hexec]
  · intro h2
    match rows, hexec, h2 with
    | r1 :: r2 :: rs, hexec, _ => simp [processAttachment, hexec]
  · intro hne rest
    have hstep : ∃ o, processAttachment env q dir fa conv a = (⟨o, false⟩, conv)
        ∧ o ≠ Outcome.execFail := by
      match rows, hexec, hne with
      | [], hexec, _ =>
        cases fa
        · exact ⟨Outcome.badRowCount 0, by simp [processAttachment, hexec], by simp⟩
        · exact ⟨Outcome.filteredOut, by simp [processAttachment, hexec], by simp⟩
      | [r1], _, hne => exact absurd rfl hne
      | r1 :: r2 :: rs, hexec, _ =>
        exact ⟨Outcome.badRowCount (r1 :: r2 :: rs).length,
          by simp [processAttachment, hexec], by simp⟩
    obtain ⟨o, ho, hno⟩ := hstep
    simp [runAttachments, ho, hno]

/-- Witness for lookup_cardinality_contract: a zero-row lookup under an
active filter skips silently. -/
theorem lookup_cardinality_contract_witness :
    baseEnv.exec (buildQuery false [] []) att0.rowId att0.attachmentId = some []
  ∧ processAttachment baseEnv (buildQuery false [] []) "out" true ([], []) att0 =
      (⟨Outcome.filteredOut, false⟩, ([], [])) := by
  have h := lookup_cardinality_contract baseEnv (buildQuery false [] []) "out" true
    ([], []) att0 [] (by decide)
  exact ⟨by decide, h.1 rfl rfl⟩

/-- Claim C4, counterexample: when the file cannot be opened for writing the
attachment is skipped without `clearData()` — the payload is not
released, refuting the claim that it is released after the write attempt
in all three situations. -/
theorem open_failure_payload_not_released :
    (processAttachment openFailEnv (buildQuery false [] []) "out" false ([], []) att0).1.outcome
        = Outcome.openFail
  ∧ (processAttachment openFailEnv (buildQuery false [] []) "out" false ([], []) att0).1.cleared
        = false := by
  decide

/-- Claim C4, amended: the payload is released immediately after the write
attempt on a successful write and on a failed write; when the file cannot
be opened no write is attempted and the payload is not released. -/
theorem payload_release_after_write_attempt (env : Env) (q : SqlQuery) (dir : String)
    (fa : Bool) (conv : List Int × List String) (a : Attachment) :
    ((processAttachment env q dir fa conv a).1.outcome = Outcome.openFail →
      (processAttachment env q dir fa conv a).1.cleared = false)
  ∧ ((processAttachment env q dir fa conv a).1.outcome = Outcome.writeFail →
      (processAttachment env q dir fa conv a).1.cleared = true)
  ∧ (∀ p, (processAttachment env q dir fa conv a).1.outcome = Outcome.written p →
      (processAttachment env q dir fa conv a).1.cleared = true) := by
  rcases processAttachment_result env q dir fa conv a with ⟨h1, h2⟩ | ⟨h1, hcases⟩
  · rw [h2]
    exact ⟨fun hx => by simp at hx, fun hx => by simp at hx, fun p hx => by simp at hx⟩
  · rcases hcases with h | ⟨n, h⟩ | h | h | h | h | ⟨p0, h⟩ <;> rw [h] <;>
      exact ⟨fun hx => by first | rfl | simp at hx,
             fun hx => by first | rfl | simp at hx,
             fun p hx => by first | rfl | simp at hx⟩

/-- Witness for payload_release_after_write_attempt: a failed write does
release the payload. -/
theorem payload_release_after_write_attempt_witness :
    (processAttachment writeFailEnv (buildQuery false [] []) "out" false ([], []) att0).1.outcome
        = Outcome.writeFail
  ∧ (processAttachment writeFailEnv (buildQuery false [] []) "out" false ([], []) att0).1.cleared
        = true := by
  refine ⟨by decide, ?_⟩
  exact (payload_release_after_write_attempt writeFailEnv (buildQuery false [] []) "out" false
    ([], []) att0).2.1 (by decide)

/-- Claim C5: a valid (start, end) pair whose end bound was reported date-only
(needrounding) contributes the range with the end extended by +999 ms; an
end bound with full time-of-day precision is used unchanged. -/
theorem date_end_bound_rounding (pd : String → Int × Bool) (s e : String)
    (ms me : Int) (sb b : Bool) (hs : pd s = (ms, sb)) (he : pd e = (me, b))
    (hms : ms ≠ -1) (hme : me ≠ -1) (hle : ms ≤ me) :
    processDateRanges pd [s, e] = ([(ms, if b then me + 999 else me)], []) := by
  have hcond : (ms == -1 || me == -1 || decide (me < ms)) = false := by
    simp [hms, hme, not_lt.mpr hle]
  simp [processDateRanges, chunkPairs, dateRangeStep, hs, he, hcond]

/-- Witness for date_end_bound_rounding on Scenario E: a date-only end
bound is rounded, a full-precision one is not. -/
theorem date_end_bound_rounding_witness :
    processDateRanges dateToMSecsSinceEpoch ["2023-01-01", "2023-01-01"] =
      ([(1672531200000, 1672531200999)], [])
  ∧ processDateRanges dateToMSecsSinceEpoch ["2023-01-01", "2023-01-01 12:00:00"] =
      ([(1672531200000, 1672574400000)], []) := by
  constructor
  · have h := date_end_bound_rounding dateToMSecsSinceEpoch "2023-01-01" "2023-01-01"
      1672531200000 1672531200000 true true (by decide) (by decide) (by decide) (by decide)
      (by decide)
    simpa using h
  · have h := date_end_bound_rounding dateToMSecsSinceEpoch "2023-01-01" "2023-01-01 12:00:00"
      1672531200000 1672574400000 true false (by decide) (by decide) (by decide) (by decide)
      (by decide)
    simpa using h

/-- Claim C6: over any sequence of resolutions from a well-formed registry, the
registry stays well-formed (thread ids unique, assigned names unique,
parallel vectors aligned — the mapping is a bijection onto the assigned
names), entries are only ever appended, and the name a registered thread
resolves to never changes. -/
theorem conversation_registry_bijection (ops : List (Int × String))
    (conv : List Int × List String) (h : GoodConv conv) :
    GoodConv (runResolves ops conv)
  ∧ (∃ ts, (runResolves ops conv).1 = conv.1 ++ ts)
  ∧ (∃ ns, (runResolves ops conv).2 = conv.2 ++ ns)
  ∧ (∀ tid, tid ∈ conv.1 →
      lookupName (runResolves ops conv) tid = lookupName conv tid) :=
  runResolves_invariant ops conv h

/-- Witness for conversation_registry_bijection: two threads named Alice
end up as Alice and Alice(2). -/
theorem conversation_registry_bijection_witness :
    GoodConv (runResolves [(1, "Alice"), (2, "Alice")] ([], []))
  ∧ runResolves [(1, "Alice"), (2, "Alice")] ([], []) = ([1, 2], ["Alice", "Alice(2)"]) := by
  refine ⟨(conversation_registry_bijection [(1, "Alice"), (2, "Alice")] ([], [])
    ⟨List.nodup_nil, List.nodup_nil, rfl⟩).1, by decide⟩

/-- Claim C7: a fresh thread whose sanitized chat-partner name is taken gets
the marker "(2)" appended as often as needed: the assigned name is
`name ++ "(2)" ^ k` for the least `k ≥ 1` making it free, it is recorded
for the new thread, and it collides with no registered name; moreover, in
the two-thread Alice scenario the run materialises the target folders
Alice and Alice(2) and writes each thread's attachment only into its own
thread's folder. -/
theorem conversation_name_disambiguation (conv : List Int × List String)
    (tid : Int) (name : String) (hnew : findIdxOf conv.1 tid = none)
    (htaken : name ∈ conv.2) :
    (∃ k, 1 ≤ k
      ∧ (resolveConv conv tid name).1.1 = conv.1 ++ [tid]
      ∧ (resolveConv conv tid name).1.2 = conv.2 ++ [appendMarkers name k]
      ∧ appendMarkers name k ∉ conv.2
      ∧ (∀ j, 1 ≤ j → j < k → appendMarkers name j ∈ conv.2))
  ∧ dumpMedia aliceEnv "out" [] [] false =
      (true, [⟨Outcome.written "out/Alice/received/a.jpg", true⟩,
              ⟨Outcome.written "out/Alice(2)/received/b.jpg", true⟩]) := by
  constructor
  · obtain ⟨k0, hval, hnm, hmin⟩ := uniqName_spec conv.2 (name ++ "(2)")
    have hres : resolveConv conv tid name =
        ((conv.1 ++ [tid], conv.2 ++ [uniqName conv.2 (name ++ "(2)")]), conv.2.length) := by
      simp [resolveConv, hnew, htaken]
    have hshift : appendMarkers name (k0 + 1) = appendMarkers (name ++ "(2)") k0 := rfl
    refine ⟨k0 + 1, by omega, by rw [hres], ?_, ?_, ?_⟩
    · rw [hres, hshift, ← hval]
    · rw [hshift, ← hval]
      exact uniqName_not_mem conv.2 (name ++ "(2)")
    · intro j hj1 hjk
      match j, hj1 with
      | j0 + 1, _ =>
        have : appendMarkers name (j0 + 1) = appendMarkers (name ++ "(2)") j0 := rfl
        rw [this]
        exact hmin j0 (by omega)
  · decide

/-- Witness for conversation_name_disambiguation: Scenario C, the second
Alice thread gets the folder Alice(2), and the run routes each thread's
attachment to its own folder. -/
theorem conversation_name_disambiguation_witness :
    (resolveConv ([1], ["Alice"]) 2 "Alice").1 = ([1, 2], ["Alice", "Alice(2)"])
  ∧ (∃ k, 1 ≤ k
      ∧ (resolveConv ([1], ["Alice"]) 2 "Alice").1.1 = [1] ++ [2]
      ∧ (resolveConv ([1], ["Alice"]) 2 "Alice").1.2 = ["Alice"] ++ [appendMarkers "Alice" k]
      ∧ appendMarkers "Alice" k ∉ ["Alice"]
      ∧ (∀ j, 1 ≤ j → j < k → appendMarkers "Alice" j ∈ ["Alice"]))
  ∧ dumpMedia aliceEnv "out" [] [] false =
      (true, [⟨Outcome.written "out/Alice/received/a.jpg", true⟩,
              ⟨Outcome.written "out/Alice(2)/received/b.jpg", true⟩]) := by
  have h := conversation_name_disambiguation ([1], ["Alice"]) 2 "Alice"
    (by decide) (by decide)
  exact ⟨by decide, h.1, h.2⟩

/-- Claim C8, counterexample: an even-length list whose final pair is
invalid after a surviving valid one (the range 2023-01-01..2023-01-03
followed by the inverted 2023-01-02..2023-01-01) hits the skipped final
iteration of dumpmedia.cc lines 108/121-122: the valid range survives and
a warning names the bad pair, but the date clause is left without its
closing parenthesis, so the assembled full-mode lookup cannot be executed
— the remaining pairs are not unaffected and no date filter is applied;
the run aborts instead. -/
theorem trailing_invalid_pair_aborts_lookup :
    (processDateRanges dateToMSecsSinceEpoch
        ["2023-01-01", "2023-01-03", "2023-01-02", "2023-01-01"]).1 =
      [(1672531200000, 1672704000999)]
  ∧ (processDateRanges dateToMSecsSinceEpoch
        ["2023-01-01", "2023-01-03", "2023-01-02", "2023-01-01"]).2 =
      [("2023-01-02", "2023-01-01")]
  ∧ dateClauseTerminated dateToMSecsSinceEpoch
      ["2023-01-01", "2023-01-03", "2023-01-02", "2023-01-01"] = false
  ∧ queryExecutes fullSchema (buildQueryFromList true [] dateToMSecsSinceEpoch
      ["2023-01-01", "2023-01-03", "2023-01-02", "2023-01-01"]) = false := by
  decide

/-- Claim C8, amended: each pair is validated independently — an invalid
pair is dropped with a warning carrying its original strings, and the
surviving pairs contribute their rounded ranges, in order, as the single
OR-combined date condition conjoined onto the WHERE clause.  The pairs
are not fully isolated, though: the clause's closing parenthesis is
emitted only with the final pair's iteration, so the combined filter
reaches the store executably exactly when the clause is terminated (final
pair valid, or no valid range at all); a trailing invalid pair after a
surviving valid one leaves the full-mode lookup unexecutable, aborting
the run. -/
theorem invalid_date_pairs_dropped (pd : String → Int × Bool) (drl : List String)
    (h : drl.length % 2 = 0) :
    (processDateRanges pd drl).1 =
      ((chunkPairs drl).filter (pairValid pd)).map (roundRange pd)
  ∧ (processDateRanges pd drl).2 = (chunkPairs drl).filter (fun p => !pairValid pd p)
  ∧ (∀ (fb : Bool) (ths : List Int), (processDateRanges pd drl).1 ≠ [] →
      QCond.dateRange (processDateRanges pd drl).1 ∈
        (buildQuery fb ths (processDateRanges pd drl).1).conds)
  ∧ (dateClauseTerminated pd drl = false ↔
      ((processDateRanges pd drl).1 ≠ [] ∧
        ∃ p, (chunkPairs drl).getLast? = some p ∧ pairValid pd p = false))
  ∧ (∀ ths : List Int, queryExecutes fullSchema (buildQueryFromList true ths pd drl) =
      dateClauseTerminated pd drl) := by
  have heven : (drl.length % 2 == 0) = true := by simp [h]
  have hpr : processDateRanges pd drl = (chunkPairs drl).foldl (dateRangeStep pd) ([], []) := by
    simp [processDateRanges, heven]
  refine ⟨?_, ?_, fun fb ths hne => dateRange_mem_conds fb ths _ hne,
    dateClauseTerminated_false_iff pd drl h, ?_⟩
  · rw [hpr, foldl_dateRangeStep]
    simp
  · rw [hpr, foldl_dateRangeStep]
    simp
  · intro ths
    show queryExecutes fullSchema
      { buildQuery true ths (processDateRanges pd drl).1 with
        closed := dateClauseTerminated pd drl } = dateClauseTerminated pd drl
    exact fullSchema_executes_eq_closed ths _ _

/-- Witness for invalid_date_pairs_dropped on the failing ordering: the
valid pair survives with rounding and enters the condition content, yet
the full-mode lookup does not execute because the trailing invalid pair
left the clause unterminated. -/
theorem invalid_date_pairs_dropped_witness :
    (processDateRanges dateToMSecsSinceEpoch
        ["2023-01-01", "2023-01-03", "2023-01-02", "2023-01-01"]).1 =
      [(1672531200000, 1672704000999)]
  ∧ QCond.dateRange (processDateRanges dateToMSecsSinceEpoch
        ["2023-01-01", "2023-01-03", "2023-01-02", "2023-01-01"]).1 ∈
      (buildQuery true [] (processDateRanges dateToMSecsSinceEpoch
        ["2023-01-01", "2023-01-03", "2023-01-02", "2023-01-01"]).1).conds
  ∧ queryExecutes fullSchema (buildQueryFromList true [] dateToMSecsSinceEpoch
        ["2023-01-01", "2023-01-03", "2023-01-02", "2023-01-01"]) =
      dateClauseTerminated dateToMSecsSinceEpoch
        ["2023-01-01", "2023-01-03", "2023-01-02", "2023-01-01"] := by
  have h := invalid_date_pairs_dropped dateToMSecsSinceEpoch
    ["2023-01-01", "2023-01-03", "2023-01-02", "2023-01-01"] (by decide)
  exact ⟨by decide, h.2.2.1 true [] (by decide), h.2.2.2.2 []⟩

/-- Claim C9: with no usable on-record filename, a known received timestamp and
a recognized mime type, the resolved filename is the local-time stem of
that timestamp followed by an `_<displayOrder>` suffix exactly when the
display order is nonzero, and the mime extension. -/
theorem fallback_filename_format (env : Env) (row : MetaRow) (a : Attachment) (t : Int)
    (hfb : fullbackupOf env = true) (hdr : row.date_received = some t)
    (hfn : (match row.file_name with
            | some fn => env.sanitizeFilename fn
            | none => "") = "")
    (hext : env.getExtension row.ct ≠ "") :
    computeFilename env row (effDatum env a row) =
      signalStem (t / 1000) ++
        (if row.display_order = 0 then "" else "_" ++ toString row.display_order) ++
        "." ++ env.getExtension row.ct := by
  have hdatum : effDatum env a row = t := by
    simp [effDatum, hfb, hdr]
  rw [hdatum]
  simp only [computeFilename, hfn, if_pos rfl]
  simp [hext]

/-- Witness for fallback_filename_format: Scenario D, an image/png
attachment with display order 0 received 2023-01-01 00:00:00. -/
theorem fallback_filename_format_witness :
    pngEnv.getExtension "image/png" ≠ ""
  ∧ computeFilename pngEnv pngRow (effDatum pngEnv att0 pngRow) =
      "signal-2023-01-01-000000.png" := by
  refine ⟨by decide, ?_⟩
  have h := fallback_filename_format pngEnv pngRow att0 1672531200000
    (by decide) (by decide) (by decide) (by decide)
  rw [h]
  decide

/-- Claim C10: an odd-length date-range token list forms no pairs, adds no date
condition to the lookup and produces no warnings, yet it still counts as
an active filter, so a zero-row lookup is classified as a benign filter
exclusion and skipped silently. -/
theorem odd_daterange_list_silent_filter (pd : String → Int × Bool) (drl : List String)
    (hne : drl ≠ []) (hodd : drl.length % 2 = 1) :
    processDateRanges pd drl = ([], [])
  ∧ (∀ (fb : Bool) (ths : List Int) (c : QCond),
      c ∈ (buildQuery fb ths (processDateRanges pd drl).1).conds →
      ∀ rs, c ≠ QCond.dateRange rs)
  ∧ (∀ ths : List Int, filtersActive ths drl = true)
  ∧ (∀ (env : Env) (q : SqlQuery) (dir : String) (ths : List Int)
      (conv : List Int × List String) (a : Attachment),
      env.exec q a.rowId a.attachmentId = some [] →
      processAttachment env q dir (filtersActive ths drl) conv a =
        (⟨Outcome.filteredOut, false⟩, conv)) := by
  have hmod : (drl.length % 2 == 0) = false := by
    simp [hodd]
  have hpr : processDateRanges pd drl = ([], []) := by
    simp [processDateRanges, hmod]
  have hfa : ∀ ths : List Int, filtersActive ths drl = true := by
    intro ths
    cases drl with
    | nil => exact absurd rfl hne
    | cons x xs => simp [filtersActive]
  refine ⟨hpr, ?_, hfa, ?_⟩
  · intro fb ths c hc rs
    rw [hpr] at hc
    simp only [buildQuery] at hc
    rcases ths with _ | ⟨t, ts⟩ <;> simp at hc <;> rcases hc with rfl | rfl <;> simp
  · intro env q dir ths conv a hexec
    simp [processAttachment, hexec, hfa ths]

/-- Witness for odd_daterange_list_silent_filter on a one-token list. -/
theorem odd_daterange_list_silent_filter_witness :
    processDateRanges dateToMSecsSinceEpoch ["2023-01-01"] = ([], [])
  ∧ filtersActive [] ["2023-01-01"] = true
  ∧ processAttachment baseEnv (buildQuery false [] []) "out"
      (filtersActive [] ["2023-01-01"]) ([], []) att0 =
        (⟨Outcome.filteredOut, false⟩, ([], [])) := by
  have h := odd_daterange_list_silent_filter dateToMSecsSinceEpoch ["2023-01-01"]
    (by decide) (by decide)
  exact ⟨h.1, h.2.2.1 [], h.2.2.2 baseEnv (buildQuery false [] []) "out" [] ([], []) att0
    (by decide)⟩

